import Mathlib

/-!
Verification of the Nordic legacy DFU utility (`dfu.py`, `dfu_cli.py`):
a shallow embedding of its data model and operations, with theorems
checking the natural-language specification against the code.
-/

set_option autoImplicit false

namespace NrfDfu

/-- A byte, modelled as a natural number (0–255 on the wire). -/
abbrev Byte := Nat

/-- `dfu.py` line 252: `chunk_size = 20`. -/
def chunk_size : Nat := 20

/-- Fuel-based helper for `streamChunks`; the fuel only makes the recursion
structural and is irrelevant once it is at least the list length. -/
def streamChunksF : Nat → List Byte → List (List Byte)
  | 0, _ => []
  | fuel + 1, bin =>
    if bin = [] then []
    else bin.take chunk_size :: streamChunksF fuel (bin.drop chunk_size)

/-- The chunk sequence produced by `_stream_firmware`'s loop
`for i in range(0, total_bytes, chunk_size): chunk = self.bin_data[i : i + chunk_size]`
(`dfu.py` lines 259–260): successive 20-byte slices of the image. -/
def streamChunks (bin : List Byte) : List (List Byte) :=
  streamChunksF bin.length bin

theorem streamChunksF_nil (fuel : Nat) : streamChunksF fuel [] = [] := by
  cases fuel <;> simp [streamChunksF]

theorem streamChunksF_fuel (f1 : Nat) :
    ∀ (f2 : Nat) (bin : List Byte), bin.length ≤ f1 → bin.length ≤ f2 →
      streamChunksF f1 bin = streamChunksF f2 bin := by
  induction f1 with
  | zero =>
    intro f2 bin h1 _
    have : bin = [] := List.eq_nil_of_length_eq_zero (Nat.le_zero.mp h1)
    subst this
    simp [streamChunksF_nil]
  | succ f1 ih =>
    intro f2 bin h1 h2
    by_cases hb : bin = []
    · subst hb; simp [streamChunksF_nil]
    · have hpos : 0 < bin.length := List.length_pos.mpr hb
      obtain ⟨f2', rfl⟩ : ∃ f2', f2 = f2' + 1 := ⟨f2 - 1, by omega⟩
      simp only [streamChunksF, if_neg hb]
      refine congrArg _ (ih f2' (bin.drop chunk_size) ?_ ?_) <;>
        simp only [List.length_drop, chunk_size] <;> omega

theorem streamChunks_nil : streamChunks [] = [] := rfl

theorem streamChunks_ne_nil (bin : List Byte) (h : bin ≠ []) :
    streamChunks bin = bin.take chunk_size :: streamChunks (bin.drop chunk_size) := by
  have hpos : 0 < bin.length := List.length_pos.mpr h
  obtain ⟨m, hm⟩ : ∃ m, bin.length = m + 1 := ⟨bin.length - 1, by omega⟩
  unfold streamChunks
  rw [hm]
  simp only [streamChunksF, if_neg h]
  refine congrArg _ (streamChunksF_fuel m _ (bin.drop chunk_size) ?_ ?_) <;>
    simp only [List.length_drop, chunk_size] <;> omega

/-- Induction along the structure of `_stream_firmware`'s loop: the empty
image, and a nonempty image given the property for its 20-byte tail. -/
theorem streamChunks_rec (P : List Byte → Prop) (h0 : P [])
    (h1 : ∀ bin, bin ≠ [] → P (bin.drop chunk_size) → P bin)
    (bin : List Byte) : P bin := by
  have key : ∀ (n : Nat) (l : List Byte), l.length ≤ n → P l := by
    intro n
    induction n with
    | zero =>
      intro l h
      have : l = [] := List.eq_nil_of_length_eq_zero (Nat.le_zero.mp h)
      subst this; exact h0
    | succ n ih =>
      intro l h
      by_cases hl : l = []
      · subst hl; exact h0
      · refine h1 l hl (ih _ ?_)
        have : 0 < l.length := List.length_pos.mpr hl
        simp only [List.length_drop, chunk_size]
        omega
  exact key bin.length bin le_rfl

theorem length_streamChunks (bin : List Byte) :
    (streamChunks bin).length = (bin.length + 19) / 20 := by
  induction bin using streamChunks_rec with
  | h0 => simp [streamChunks_nil]
  | h1 bin h ih =>
    rw [streamChunks_ne_nil bin h]
    simp only [List.length_cons, ih, List.length_drop]
    have : 0 < bin.length := List.length_pos.mpr h
    simp only [chunk_size]
    omega

theorem join_streamChunks (bin : List Byte) : (streamChunks bin).join = bin := by
  induction bin using streamChunks_rec with
  | h0 => simp [streamChunks_nil]
  | h1 bin h ih =>
    rw [streamChunks_ne_nil bin h]
    simp [ih]

theorem get?_streamChunks (bin : List Byte) :
    ∀ i : Nat, (streamChunks bin).get? i =
      if chunk_size * i < bin.length then
        some ((bin.drop (chunk_size * i)).take chunk_size)
      else none := by
  induction bin using streamChunks_rec with
  | h0 => intro i; simp [streamChunks_nil]
  | h1 bin h ih =>
    intro i
    rw [streamChunks_ne_nil bin h]
    have hpos : 0 < bin.length := List.length_pos.mpr h
    cases i with
    | zero => simp [hpos]
    | succ j =>
      simp only [List.get?_cons_succ, ih j, List.length_drop, List.drop_drop]
      have harith : chunk_size + chunk_size * j = chunk_size * (j + 1) := by ring
      rw [harith]
      simp only [chunk_size] at *
      by_cases hc : 20 * (j + 1) < bin.length
      · rw [if_pos (by omega), if_pos hc]
      · rw [if_neg (by omega), if_neg hc]

theorem mem_streamChunks_length_le (bin : List Byte) :
    ∀ c ∈ streamChunks bin, c.length ≤ chunk_size := by
  induction bin using streamChunks_rec with
  | h0 => simp [streamChunks_nil]
  | h1 bin h ih =>
    rw [streamChunks_ne_nil bin h]
    intro c hc
    rcases List.mem_cons.mp hc with rfl | hc
    · exact List.length_take_le _ _
    · exact ih c hc

/-- C1: for every image of length L, `_stream_firmware` issues exactly
ceil(L/20) data-channel writes; each written chunk has at most 20 bytes, the
chunk at index i is the slice of the image at offset 20·i, every chunk except
possibly the last has exactly 20 bytes, and the concatenation of the chunks
is the original image. -/
theorem C1_streamer_chunking (bin : List Byte) :
    (streamChunks bin).length = (bin.length + 19) / 20 ∧
    (streamChunks bin).join = bin ∧
    (∀ c ∈ streamChunks bin, c.length ≤ chunk_size) ∧
    (∀ i : Nat, (streamChunks bin).get? i =
      if chunk_size * i < bin.length then
        some ((bin.drop (chunk_size * i)).take chunk_size)
      else none) ∧
    (∀ i : Nat, i + 1 < (streamChunks bin).length →
      (((streamChunks bin).get? i).getD []).length = chunk_size) := by
  refine ⟨length_streamChunks bin, join_streamChunks bin,
    mem_streamChunks_length_le bin, get?_streamChunks bin, ?_⟩
  intro i hi
  rw [get?_streamChunks bin i]
  rw [length_streamChunks bin] at hi
  have hc : chunk_size * i < bin.length := by simp only [chunk_size]; omega
  rw [if_pos hc]
  simp only [Option.getD_some, List.length_take, List.length_drop, chunk_size] at *
  omega

/-- Closed instance of `C1_streamer_chunking` on a 41-byte image:
3 chunks, the concatenation is the image, and chunk 0 has 20 bytes. -/
theorem C1_streamer_chunking_witness :
    (streamChunks (List.range 41)).length = 3 ∧
    (streamChunks (List.range 41)).join = List.range 41 ∧
    (((streamChunks (List.range 41)).get? 0).getD []).length = chunk_size := by
  have h := C1_streamer_chunking (List.range 41)
  refine ⟨?_, h.2.1, h.2.2.2.2 0 (by rw [h.1]; simp)⟩
  rw [h.1]; simp

/-- `dfu.py` line 274: `asyncio.wait_for(self.pkg_receipt_event.wait(), timeout=5.0)`. -/
def prn_wait_timeout : Nat := 5

/-- Observable actions of `_stream_firmware` (`dfu.py` lines 251–281):
data-channel chunk writes, receipt-signal clears, receipt waits (recording
the timeout bound used and whether the wait timed out), and the final
progress print.  The periodic integer-percent log lines (lines 266–269)
are console output only and are elided. -/
inductive SAction where
  | write (c : List Byte)
  | clearSignal
  | waitReceipt (limit : Nat) (timedOut : Bool)
  | progress (pct : Nat)
deriving DecidableEq

/-- The trace of `_stream_firmware`'s loop (`dfu.py` lines 259–281) over the
chunk list.  `outcomes k` tells whether the k-th receipt wait sees the signal
before the timeout (`false` = timeout); `cnt` is `packets_since_prn` and `k`
counts waits so far.  After each write the counter is incremented; when
`prn > 0` and the counter reaches `prn`, the signal is cleared, waited on
(up to 5 time units), and — timeout or not — the counter resets to 0 and
streaming continues.  Lines 280–281 print 100% unconditionally at the end. -/
def streamLoop (prn : Nat) (outcomes : Nat → Bool) :
    List (List Byte) → Nat → Nat → List SAction
  | [], _, _ => [.progress 100]
  | c :: rest, k, cnt =>
    if 0 < prn ∧ prn ≤ cnt + 1 then
      .write c :: .clearSignal :: .waitReceipt prn_wait_timeout (!outcomes k) ::
        streamLoop prn outcomes rest (k + 1) 0
    else
      .write c :: streamLoop prn outcomes rest k (cnt + 1)

/-- `_stream_firmware` itself: chunk the image, then run the loop with
`packets_since_prn = 0` (`dfu.py` lines 251–281). -/
def stream_firmware (prn : Nat) (outcomes : Nat → Bool) (bin : List Byte) :
    List SAction :=
  streamLoop prn outcomes (streamChunks bin) 0 0

/-- The chunks written on the data channel, in order, by a trace. -/
def writtenChunks : List SAction → List (List Byte)
  | [] => []
  | .write c :: t => c :: writtenChunks t
  | _ :: t => writtenChunks t

/-- Number of receipt waits in a trace. -/
def countWaits : List SAction → Nat
  | [] => 0
  | .waitReceipt _ _ :: t => countWaits t + 1
  | _ :: t => countWaits t

/-- `runsBounded N tr run` checks that no segment of `tr` between receipt
waits contains more than `N` writes, starting with `run` writes already
issued since the last wait. -/
def runsBounded (N : Nat) : List SAction → Nat → Bool
  | [], _ => true
  | .write _ :: t, run => decide (run + 1 ≤ N) && runsBounded N t (run + 1)
  | .waitReceipt _ _ :: t, _ => runsBounded N t 0
  | _ :: t, run => runsBounded N t run

/-- Every receipt wait is immediately preceded by a clear of the receipt
signal and uses the 5-time-unit bound. -/
def waitsWellFormed : List SAction → Bool
  | [] => true
  | .clearSignal :: .waitReceipt lim _ :: t =>
      decide (lim = prn_wait_timeout) && waitsWellFormed t
  | .waitReceipt _ _ :: _ => false
  | _ :: t => waitsWellFormed t

theorem writtenChunks_streamLoop (prn : Nat) (outcomes : Nat → Bool)
    (chunks : List (List Byte)) :
    ∀ (k cnt : Nat), writtenChunks (streamLoop prn outcomes chunks k cnt) = chunks := by
  induction chunks with
  | nil => intro k cnt; simp [streamLoop, writtenChunks]
  | cons c rest ih =>
    intro k cnt
    by_cases h : 0 < prn ∧ prn ≤ cnt + 1 <;>
      simp [streamLoop, h, writtenChunks, ih]

theorem getLast?_streamLoop (prn : Nat) (outcomes : Nat → Bool)
    (chunks : List (List Byte)) :
    ∀ (k cnt : Nat),
      (streamLoop prn outcomes chunks k cnt).getLast? = some (.progress 100) := by
  induction chunks with
  | nil => intro k cnt; simp [streamLoop]
  | cons c rest ih =>
    intro k cnt
    by_cases h : 0 < prn ∧ prn ≤ cnt + 1 <;>
      simp [streamLoop, h, List.getLast?_cons, ih]

theorem runsBounded_streamLoop (prn : Nat) (outcomes : Nat → Bool)
    (chunks : List (List Byte)) :
    ∀ cnt k, cnt < prn →
      runsBounded prn (streamLoop prn outcomes chunks k cnt) cnt = true := by
  induction chunks with
  | nil => intro cnt k _; simp [streamLoop, runsBounded]
  | cons c rest ih =>
    intro cnt k hcnt
    by_cases h : 0 < prn ∧ prn ≤ cnt + 1
    · simp only [streamLoop, if_pos h, runsBounded]
      rw [decide_eq_true (by omega : cnt + 1 ≤ prn)]
      simpa using ih 0 (k + 1) h.1
    · simp only [streamLoop, if_neg h, runsBounded]
      have hlt : cnt + 1 < prn := by
        rcases Nat.lt_or_ge (cnt + 1) prn with h' | h'
        · exact h'
        · exact absurd ⟨by omega, h'⟩ h
      rw [decide_eq_true (by omega : cnt + 1 ≤ prn)]
      simpa using ih (cnt + 1) k hlt

theorem waitsWellFormed_streamLoop (prn : Nat) (outcomes : Nat → Bool)
    (chunks : List (List Byte)) :
    ∀ k cnt, waitsWellFormed (streamLoop prn outcomes chunks k cnt) = true := by
  induction chunks with
  | nil => intro k cnt; simp [streamLoop, waitsWellFormed]
  | cons c rest ih =>
    intro k cnt
    by_cases h : 0 < prn ∧ prn ≤ cnt + 1
    · simp only [streamLoop, if_pos h, waitsWellFormed]
      simpa using ih (k + 1) 0
    · simp only [streamLoop, if_neg h, waitsWellFormed]
      exact ih k (cnt + 1)

theorem countWaits_streamLoop_zero (prn : Nat) (outcomes : Nat → Bool)
    (chunks : List (List Byte)) :
    ∀ k cnt, cnt + chunks.length < prn ∨ prn = 0 →
      countWaits (streamLoop prn outcomes chunks k cnt) = 0 := by
  induction chunks with
  | nil => intro k cnt _; simp [streamLoop, countWaits]
  | cons c rest ih =>
    intro k cnt hbound
    have h : ¬(0 < prn ∧ prn ≤ cnt + 1) := by
      rcases hbound with h' | h'
      · simp only [List.length_cons] at h'
        intro ⟨_, hle⟩
        omega
      · intro ⟨hpos, _⟩; omega
    simp only [streamLoop, if_neg h, countWaits]
    refine ih k (cnt + 1) ?_
    rcases hbound with h' | h'
    · left; simp only [List.length_cons] at h'; omega
    · right; exact h'

/-- C2: for every positive receipt interval N, `_stream_firmware` issues at
most N chunk writes between consecutive receipt-signal checks; every receipt
wait is immediately preceded by a clear of the receipt signal and uses the
5-time-unit bound; regardless of the wait outcomes (including every wait
timing out), the written chunks are exactly the image's chunk sequence and
the trace ends with the 100% progress report; and when N = 0 or N exceeds
the total chunk count, no receipt wait occurs. -/
theorem C2_flow_control (prn : Nat) (outcomes : Nat → Bool) (bin : List Byte) :
    (0 < prn → runsBounded prn (stream_firmware prn outcomes bin) 0 = true) ∧
    waitsWellFormed (stream_firmware prn outcomes bin) = true ∧
    writtenChunks (stream_firmware prn outcomes bin) = streamChunks bin ∧
    (writtenChunks (stream_firmware prn outcomes bin)).join = bin ∧
    (stream_firmware prn outcomes bin).getLast? = some (.progress 100) ∧
    (prn = 0 ∨ (streamChunks bin).length < prn →
      countWaits (stream_firmware prn outcomes bin) = 0) := by
  refine ⟨fun h => runsBounded_streamLoop prn outcomes _ 0 0 h,
    waitsWellFormed_streamLoop prn outcomes _ 0 0,
    writtenChunks_streamLoop prn outcomes _ 0 0,
    ?_, getLast?_streamLoop prn outcomes _ 0 0, ?_⟩
  · unfold stream_firmware
    rw [writtenChunks_streamLoop prn outcomes _ 0 0]
    exact join_streamChunks bin
  · intro h
    refine countWaits_streamLoop_zero prn outcomes _ 0 0 ?_
    rcases h with h | h
    · right; exact h
    · left; omega

/-- Closed instance of `C2_flow_control`: a 41-byte image (3 chunks) with
interval 2 and every wait timing out still writes everything and ends at
100%, with writes-per-segment bounded by 2; with interval 9 (> 3 chunks)
no receipt wait occurs. -/
theorem C2_flow_control_witness :
    runsBounded 2 (stream_firmware 2 (fun _ => false) (List.range 41)) 0 = true ∧
    waitsWellFormed (stream_firmware 2 (fun _ => false) (List.range 41)) = true ∧
    (writtenChunks (stream_firmware 2 (fun _ => false) (List.range 41))).join =
      List.range 41 ∧
    (stream_firmware 2 (fun _ => false) (List.range 41)).getLast? =
      some (.progress 100) ∧
    countWaits (stream_firmware 9 (fun _ => false) (List.range 41)) = 0 := by
  have h2 := C2_flow_control 2 (fun _ => false) (List.range 41)
  have h9 := C2_flow_control 9 (fun _ => false) (List.range 41)
  exact ⟨h2.1 (by decide), h2.2.1, h2.2.2.2.1, h2.2.2.2.2.1,
    h9.2.2.2.2.2 (Or.inr (by decide))⟩

/-- `_wait_for_response` (`dfu.py` lines 112–127), as a function of the
status event dequeued within the timeout (`none` when `asyncio.wait_for`
raises `TimeoutError`).  Queued events are the `(request_op, status)` pairs
put by `_notification_handler` (line 104).  Returns the Python int the
method returns: `-1` on timeout (line 127), `-1` on an opcode mismatch
(line 118), the original `status` when it is not 1 (line 122), and `1` on
success (line 124).  The `timeout` argument only bounds the dequeue and
does not affect which value is returned. -/
def wait_for_response (expected_op_code : Nat) (timeout : Nat)
    (ev : Option (Nat × Nat)) : Int :=
  match ev with
  | none => -1
  | some (request_op, status) =>
    if request_op ≠ expected_op_code then -1
    else if status ≠ 1 then (status : Int)
    else 1

/-- C3 counterexample: the value returned on timeout (-1) is exactly the
value returned for a stale event whose opcode mismatches, so a timeout is
not distinguishable as such from the stale-event outcome. -/
theorem C3_counterexample :
    wait_for_response 1 30 none = -1 ∧
    wait_for_response 1 30 (some (3, 1)) = -1 ∧
    wait_for_response 1 30 none = wait_for_response 1 30 (some (3, 1)) := by
  decide

/-- C3 (amended): a dequeued event with a mismatched opcode is discarded and
yields -1 immediately, with no further wait; a matching event with status ≠ 1
yields that original status code; a timeout yields -1 — the same value as a
stale event, distinct from success and from every genuine status byte of a
matching event; and the call returns 1 exactly when the dequeued event
matches the expected opcode with status 1. -/
theorem C3_wait_for_response (expected timeout : Nat) (ev : Option (Nat × Nat)) :
    (ev = none → wait_for_response expected timeout ev = -1) ∧
    (∀ op st : Nat, ev = some (op, st) → op ≠ expected →
      wait_for_response expected timeout ev = -1) ∧
    (∀ st : Nat, ev = some (expected, st) → st ≠ 1 →
      wait_for_response expected timeout ev = (st : Int)) ∧
    (∀ st : Nat, st ≠ 1 →
      wait_for_response expected timeout (some (expected, st)) ≠ -1) ∧
    (wait_for_response expected timeout ev = 1 ↔ ev = some (expected, 1)) := by
  refine ⟨?_, ?_, ?_, ?_, ?_⟩
  · rintro rfl; rfl
  · rintro op st rfl hne
    simp [wait_for_response, hne]
  · rintro st rfl hne
    simp [wait_for_response, hne]
  · intro st hne
    have h1 : wait_for_response expected timeout (some (expected, st)) = (st : Int) := by
      simp [wait_for_response, hne]
    rw [h1]
    omega
  · constructor
    · intro h
      match ev with
      | none => exact absurd (show (-1 : Int) = 1 from h) (by decide)
      | some (op, st) =>
        by_cases hop : op = expected
        · by_cases hst : st = 1
          · rw [hop, hst]
          · rw [show wait_for_response expected timeout (some (op, st)) =
                (st : Int) by simp [wait_for_response, hop, hst]] at h
            omega
        · simp [wait_for_response, hop] at h
    · rintro rfl
      simp [wait_for_response]

/-- Closed instance of `C3_wait_for_response`: expecting opcode 3, a
matching event with status 2 returns 2, and a matching event with status 1
returns 1. -/
theorem C3_wait_for_response_witness :
    wait_for_response 3 30 (some (3, 2)) = 2 ∧
    wait_for_response 3 30 (some (3, 1)) = 1 := by
  have h1 := C3_wait_for_response 3 30 (some (3, 2))
  have h2 := C3_wait_for_response 3 30 (some (3, 1))
  exact ⟨by simpa using h1.2.2.1 2 rfl (by decide), h2.2.2.2.2.mpr rfl⟩

/-- A queued status event `(request_op, status)` as put by
`_notification_handler` (`dfu.py` line 104). -/
abbrev StatusEvent := Nat × Nat

/-- The drain loop at `dfu.py` line 159:
`while not self.response_queue.empty(): self.response_queue.get_nowait()`. -/
def drainLoop : List StatusEvent → List StatusEvent
  | [] => []
  | _ :: t => drainLoop t

theorem drainLoop_eq_nil (q : List StatusEvent) : drainLoop q = [] := by
  induction q with
  | nil => rfl
  | cons e t ih => simpa [drainLoop] using ih

/-- The successive `response_queue.get` dequeues of one attempt: before the
k-th dequeue, the events `ds[k]` delivered while the task was suspended
since the previous dequeue are appended to the queue, then the head (if
any) is consumed; `none` records a dequeue that finds the queue empty
(a timeout of that `_wait_for_response`). -/
def popRun : List StatusEvent → List (List StatusEvent) → List (Option StatusEvent)
  | _, [] => []
  | q, d :: ds =>
    match q ++ d with
    | [] => none :: popRun [] ds
    | e :: t => some e :: popRun t ds

/-- The events consumed by the `_wait_for_response` calls of one
`perform_update` attempt: `q0` is the queue content left over from earlier
attempts, `d1` the events delivered up to and including the `start_notify`
suspension (`dfu.py` line 158); the drain at line 159 then runs on the
queue `q0 ++ d1` — no suspension point separates the drain from the first
command write at line 164, so nothing can be enqueued in between — and
`ds` groups the events delivered at each later suspension by the dequeue
that first sees them. -/
def attemptConsumed (q0 d1 : List StatusEvent) (ds : List (List StatusEvent)) :
    List (Option StatusEvent) :=
  popRun (drainLoop (q0 ++ d1)) ds

theorem popRun_mem (ds : List (List StatusEvent)) :
    ∀ (q : List StatusEvent) (e : StatusEvent),
      some e ∈ popRun q ds → e ∈ q ∨ e ∈ ds.join := by
  induction ds with
  | nil => intro q e h; simp [popRun] at h
  | cons d ds ih =>
    intro q e h
    simp only [popRun] at h
    rcases hq : q ++ d with _ | ⟨e', t⟩ <;> rw [hq] at h
    · rcases List.mem_cons.mp h with h' | h'
      · exact absurd h' (by simp)
      · rcases ih [] e h' with h'' | h''
        · simp at h''
        · right; simp [List.join, h'']
    · rcases List.mem_cons.mp h with h' | h'
      · have : e = e' := by injection h'
        subst this
        have : e ∈ q ++ d := by rw [hq]; exact List.mem_cons_self _ _
        rcases List.mem_append.mp this with h'' | h''
        · exact Or.inl h''
        · right; simp [List.join]; exact Or.inl h''
      · rcases ih t e h' with h'' | h''
        · have : e ∈ q ++ d := by
            rw [hq]; exact List.mem_cons_of_mem _ h''
          rcases List.mem_append.mp this with h3 | h3
          · exact Or.inl h3
          · right; simp [List.join]; exact Or.inl h3
        · right; simp [List.join]; right; simpa using h''

/-- C10: at the start of every attempt, after `start_notify` and before the
first command write, the pending status-event queue is drained to empty;
consequently every event consumed by an `awaitResponse` dequeue later in the
attempt was delivered at a suspension point at or after the first command
write — never during an earlier attempt or before the first command. -/
theorem C10_queue_drained (q0 d1 : List StatusEvent)
    (ds : List (List StatusEvent)) :
    drainLoop (q0 ++ d1) = [] ∧
    ∀ e : StatusEvent, some e ∈ attemptConsumed q0 d1 ds → e ∈ ds.join := by
  refine ⟨drainLoop_eq_nil _, ?_⟩
  intro e h
  unfold attemptConsumed at h
  rw [drainLoop_eq_nil] at h
  rcases popRun_mem ds [] e h with h' | h'
  · simp at h'
  · exact h'

/-- Closed instance of `C10_queue_drained`: with a stale event (9, 1) left
from an earlier attempt and (8, 1) delivered during `start_notify`, the only
event a later dequeue can consume is the one delivered after the first
command write. -/
theorem C10_queue_drained_witness :
    drainLoop ([((9 : Nat), (1 : Nat))] ++ [(8, 1)]) = [] ∧
    ((1 : Nat), (1 : Nat)) ∈ ([[((1 : Nat), (1 : Nat))]] : List (List StatusEvent)).join :=
  ⟨(C10_queue_drained [(9, 1)] [(8, 1)] [[(1, 1)]]).1,
    (C10_queue_drained [(9, 1)] [(8, 1)] [[(1, 1)]]).2 (1, 1) (by decide)⟩

/-- Errors visible to `perform_update`'s attempt-level handler (`dfu.py`
line 242): the script's own `DfuException`s and transport-level exceptions,
the latter tagged here by an arbitrary code. -/
inductive UpdateError where
  | dfu (msg : String)
  | transport (code : Nat)
deriving DecidableEq

/-- The start-DFU failure handling of `dfu.py` lines 183–188, as a function
of the `_wait_for_response` result `status` and of the outcome of the
subsequent reset write (`some code` when `write_gatt_char` raises, `none`
when it succeeds).  The reset write at line 187 is not wrapped in a
`try`/`except`: when it raises, that exception — not the
`DfuException("Start DFU sequence failed")` of line 188 — propagates to the
attempt handler.  On `status = 1` the step succeeds and no reset is
written. -/
def startDfuCheck (status : Int) (resetErr : Option Nat) : Except UpdateError Unit :=
  if status ≠ 1 then
    match resetErr with
    | some code => .error (.transport code)
    | none => .error (.dfu "Start DFU sequence failed")
  else .ok ()

/-- C5 counterexample: when the wait for the start-update status fails and
the best-effort reset write itself raises, the transport error is not
ignored — it propagates in place of the distinct start-DFU error. -/
theorem C5_counterexample :
    startDfuCheck (-1) (some 7) = .error (.transport 7) ∧
    startDfuCheck (-1) (some 7) ≠ .error (.dfu "Start DFU sequence failed") := by
  refine ⟨rfl, ?_⟩
  intro h
  have h' : Except.error (UpdateError.transport 7) =
      (Except.error (UpdateError.dfu "Start DFU sequence failed") : Except UpdateError Unit) := h
  simp at h'

/-- C5 (amended): when the extended-timeout wait for the start-update status
yields any non-success result, a reset command is written with no exception
handling: if that write succeeds, the attempt fails with the distinct
start-DFU error; if the write raises, the transport error propagates to the
failure path instead; either way the step fails.  On success no reset is
written and the step succeeds. -/
theorem C5_start_dfu (status : Int) (resetErr : Option Nat) :
    (status ≠ 1 → startDfuCheck status none = .error (.dfu "Start DFU sequence failed")) ∧
    (status ≠ 1 → ∀ code, startDfuCheck status (some code) = .error (.transport code)) ∧
    (status ≠ 1 → ∃ e, startDfuCheck status resetErr = .error e) ∧
    startDfuCheck 1 resetErr = .ok () := by
  refine ⟨?_, ?_, ?_, ?_⟩
  · intro h; simp [startDfuCheck, h]
  · intro h code; simp [startDfuCheck, h]
  · intro h
    cases resetErr <;> simp [startDfuCheck, h]
  · cases resetErr <;> simp [startDfuCheck]

/-- Closed instance of `C5_start_dfu`: status -1 with a successful reset
write fails with the distinct start-DFU error; status 1 succeeds. -/
theorem C5_start_dfu_witness :
    startDfuCheck (-1) none = .error (.dfu "Start DFU sequence failed") ∧
    startDfuCheck 1 none = .ok () :=
  ⟨(C5_start_dfu (-1) none).1 (by decide), (C5_start_dfu 1 none).2.2.2⟩

/-- `jump_to_bootloader` (`dfu.py` lines 129–144) as a function of the
outcomes of its transport calls (`some code` = that call raises).  The jump
write sits in its own `try`/`except Exception: pass` (lines 137–140), and
the whole connect/subscribe/write/sleep block sits in an outer
`try`/`except Exception` that only logs (lines 143–144), so the method
returns normally whatever the transport does. -/
def jump_to_bootloader (connectErr subscribeErr writeErr : Option Nat) :
    Except UpdateError Unit :=
  let body : Except UpdateError Unit :=
    match connectErr with
    | some code => .error (.transport code)
    | none =>
      match subscribeErr with
      | some code => .error (.transport code)
      | none =>
        match writeErr with
        | some _ => .ok ()
        | none => .ok ()
  match body with
  | .error _ => .ok ()
  | .ok () => .ok ()

/-- Outcome of the tail of a `perform_update` attempt. -/
inductive UpdateOutcome where
  | done
  | failed (e : UpdateError)
deriving DecidableEq

/-- Step 8 of `perform_update` (`dfu.py` lines 232–240): the activate-and-
reset write is wrapped in `try`/`except Exception: pass`, after which the
attempt logs "DFU Complete." and returns successfully. -/
def activateAndFinish (writeErr : Option Nat) : UpdateOutcome :=
  match writeErr with
  | some _ => .done
  | none => .done

/-- C6: transport errors during the jump and during the activate write are
swallowed: `jump_to_bootloader` returns normally for every combination of
exceptions from connect, subscribe and the jump write, and an exception
from the activate write still yields the Done (success) outcome of the
attempt. -/
theorem C6_swallowed_errors (connectErr subscribeErr writeErr aErr : Option Nat) :
    jump_to_bootloader connectErr subscribeErr writeErr = .ok () ∧
    activateAndFinish aErr = .done := by
  cases connectErr <;> cases subscribeErr <;> cases writeErr <;> cases aErr <;>
    exact ⟨rfl, rfl⟩

/-- Orchestrator-level actions of one run (`dfu.py` `main` lines 339–371
and `perform_update` lines 146–249). -/
inductive OAction where
  | locate
  | jump
  | settleDelay
  | uuidScan
  | connectAttempt (i : Nat)
  | backoff (delay : Nat)
deriving DecidableEq

/-- Outcome of `perform_update`'s retry loop. -/
inductive RunOutcome where
  | success (attempt : Nat)
  | exitFailure
  | noAttempts
deriving DecidableEq

/-- The retry loop of `perform_update` (`dfu.py` lines 149–249).  In
`dfu.py` the bound is the literal `max_retries = 3`; the CLI
(`dfu_cli.py` line 160) passes a configurable `max_retries` (default 3)
to the library's `perform_update`, so the bound is a parameter here.
`fails i` says whether the body of attempt `i` (connect through activate)
raises.  `remaining` counts the loop iterations left, so the call starts
with `remaining = max_retries` and `attempt = 0`.  On a failing attempt
that is not the last, the loop sleeps 3 time units (line 246) and retries
by reconnecting to the same, already-located bootloader device; on the
last it calls `sys.exit(1)` (line 249).  A zero bound means the `for`
loop body never runs and the function falls through. -/
def retryLoop (fails : Nat → Bool) : Nat → Nat → RunOutcome × List OAction
  | _, 0 => (.noAttempts, [])
  | attempt, remaining + 1 =>
    if fails attempt then
      if remaining = 0 then (.exitFailure, [.connectAttempt attempt])
      else
        let r := retryLoop fails (attempt + 1) remaining
        (r.1, .connectAttempt attempt :: .backoff 3 :: r.2)
    else (.success attempt, [.connectAttempt attempt])

/-- `perform_update` with a configurable attempt bound. -/
def perform_update (fails : Nat → Bool) (max_retries : Nat) :
    RunOutcome × List OAction :=
  retryLoop fails 0 max_retries

/-- The action trace of one full run of `main` (`dfu.py` lines 339–371) on
a run where the service-UUID scan finds the bootloader: locate the
application device once (line 343), jump (line 344), settle (line 347),
scan for the bootloader (line 352), then `perform_update` with its
internal retry loop (line 371). -/
def mainRunTrace (fails : Nat → Bool) (max_retries : Nat) : List OAction :=
  .locate :: .jump :: .settleDelay :: .uuidScan ::
    (perform_update fails max_retries).2

/-- Number of actions satisfying `p` in a trace. -/
def countActs (p : OAction → Bool) : List OAction → Nat
  | [] => 0
  | a :: t => (if p a then 1 else 0) + countActs p t

/-- Recognizers for the counted action kinds. -/
def isLocate : OAction → Bool
  | .locate => true
  | _ => false

def isConnectAttempt : OAction → Bool
  | .connectAttempt _ => true
  | _ => false

def isBackoff : OAction → Bool
  | .backoff _ => true
  | _ => false

/-- Every backoff in the trace sleeps exactly 3 time units. -/
def backoffsAre3 : List OAction → Bool
  | [] => true
  | .backoff d :: t => decide (d = 3) && backoffsAre3 t
  | _ :: t => backoffsAre3 t

theorem retryLoop_all_fail (fails : Nat → Bool) :
    ∀ (remaining attempt : Nat), 0 < remaining →
      (∀ i, i < remaining → fails (attempt + i) = true) →
      (retryLoop fails attempt remaining).1 = .exitFailure ∧
      countActs isBackoff (retryLoop fails attempt remaining).2 = remaining - 1 ∧
      countActs isConnectAttempt (retryLoop fails attempt remaining).2 = remaining := by
  intro remaining
  induction remaining with
  | zero => intro attempt h; omega
  | succ r ih =>
    intro attempt _ hfail
    have h0 : fails attempt = true := by simpa using hfail 0 (by omega)
    by_cases hr : r = 0
    · subst hr
      simp [retryLoop, h0, countActs, isBackoff, isConnectAttempt]
    · have := ih (attempt + 1) (by omega)
        (fun i hi => by
          have := hfail (i + 1) (by omega)
          simpa [Nat.add_assoc, Nat.add_comm 1 i] using this)
      simp only [retryLoop, h0, if_true, if_neg hr]
      refine ⟨this.1, ?_, ?_⟩
      · simp [countActs, isBackoff, isConnectAttempt, this.2.1]
        omega
      · simp [countActs, isBackoff, isConnectAttempt, this.2.2]
        omega

theorem retryLoop_success (fails : Nat → Bool) :
    ∀ (k attempt remaining : Nat), k < remaining →
      (∀ i, i < k → fails (attempt + i) = true) →
      fails (attempt + k) = false →
      (retryLoop fails attempt remaining).1 = .success (attempt + k) ∧
      countActs isBackoff (retryLoop fails attempt remaining).2 = k ∧
      countActs isConnectAttempt (retryLoop fails attempt remaining).2 = k + 1 := by
  intro k
  induction k with
  | zero =>
    intro attempt remaining hlt _ hsucc
    obtain ⟨r, rfl⟩ : ∃ r, remaining = r + 1 := ⟨remaining - 1, by omega⟩
    simp only [Nat.add_zero] at hsucc
    simp [retryLoop, hsucc, countActs, isBackoff, isConnectAttempt]
  | succ k ih =>
    intro attempt remaining hlt hfail hsucc
    obtain ⟨r, rfl⟩ : ∃ r, remaining = r + 1 := ⟨remaining - 1, by omega⟩
    have h0 : fails attempt = true := by simpa using hfail 0 (by omega)
    have hr : r ≠ 0 := by omega
    have hrec := ih (attempt + 1) r (by omega)
      (fun i hi => by
        have := hfail (i + 1) (by omega)
        simpa [Nat.add_assoc, Nat.add_comm 1 i] using this)
      (by
        have : attempt + 1 + k = attempt + (k + 1) := by omega
        rw [this]; exact hsucc)
    simp only [retryLoop, h0, if_true, if_neg hr]
    have heq : attempt + 1 + k = attempt + (k + 1) := by omega
    refine ⟨by rw [hrec.1, heq], ?_, ?_⟩
    · simp [countActs, isBackoff, isConnectAttempt, hrec.2.1]
      omega
    · simp [countActs, isBackoff, isConnectAttempt, hrec.2.2]
      omega

theorem retryLoop_backoffs3 (fails : Nat → Bool) :
    ∀ (remaining attempt : Nat),
      backoffsAre3 (retryLoop fails attempt remaining).2 = true := by
  intro remaining
  induction remaining with
  | zero => intro attempt; simp [retryLoop, backoffsAre3]
  | succ r ih =>
    intro attempt
    by_cases hf : fails attempt = true
    · by_cases hr : r = 0
      · subst hr; simp [retryLoop, hf, backoffsAre3]
      · simp only [retryLoop, hf, if_true, if_neg hr]
        simpa [backoffsAre3] using ih (attempt + 1)
    · simp only [Bool.not_eq_true] at hf
      simp [retryLoop, hf, backoffsAre3]

theorem retryLoop_no_locate (fails : Nat → Bool) :
    ∀ (remaining attempt : Nat),
      countActs isLocate (retryLoop fails attempt remaining).2 = 0 := by
  intro remaining
  induction remaining with
  | zero => intro attempt; simp [retryLoop, countActs]
  | succ r ih =>
    intro attempt
    by_cases hf : fails attempt = true
    · by_cases hr : r = 0
      · subst hr; simp [retryLoop, hf, countActs, isLocate]
      · simp only [retryLoop, hf, if_true, if_neg hr]
        simp [countActs, isLocate, ih (attempt + 1)]
    · simp only [Bool.not_eq_true] at hf
      simp [retryLoop, hf, countActs, isLocate]

/-- C4 counterexample: on a run whose first attempt fails and whose second
succeeds (bound 3), the device is located exactly once while two attempts
start — the retry does not restart from "locate target", contradicting the
claim that every retry restarts the entire sequence from there (which would
give at least as many locate actions as attempt starts). -/
theorem C4_counterexample :
    countActs isConnectAttempt (mainRunTrace (fun i => decide (i = 0)) 3) = 2 ∧
    countActs isLocate (mainRunTrace (fun i => decide (i = 0)) 3) = 1 ∧
    ¬(countActs isConnectAttempt (mainRunTrace (fun i => decide (i = 0)) 3) ≤
      countActs isLocate (mainRunTrace (fun i => decide (i = 0)) 3)) := by
  decide

/-- C4 (amended): the retry loop runs up to the configured attempt count
(default 3); on a failure of any attempt but the last it waits a 3-time-unit
backoff and restarts from establishing the DFU connection to the
already-located bootloader device — the device is not re-located (the run
contains exactly one locate action).  With failures on the first k attempts
and success on attempt k (0-based, k below the bound), the run succeeds
after exactly k backoffs and k+1 connection attempts; in particular
failures on attempts 1 and 2 with success on attempt 3 under bound 3 give
exactly 2 backoffs.  Exhausting all attempts is a terminal failure
(`sys.exit(1)`). -/
theorem C4_retry_loop (fails : Nat → Bool) (max_retries k : Nat) :
    (k < max_retries → (∀ i, i < k → fails i = true) → fails k = false →
      (perform_update fails max_retries).1 = .success k ∧
      countActs isBackoff (perform_update fails max_retries).2 = k ∧
      countActs isConnectAttempt (perform_update fails max_retries).2 = k + 1) ∧
    (0 < max_retries → (∀ i, i < max_retries → fails i = true) →
      (perform_update fails max_retries).1 = .exitFailure) ∧
    backoffsAre3 (perform_update fails max_retries).2 = true ∧
    countActs isLocate (mainRunTrace fails max_retries) = 1 := by
  refine ⟨?_, ?_, retryLoop_backoffs3 fails max_retries 0, ?_⟩
  · intro hk hfail hsucc
    have := retryLoop_success fails k 0 max_retries hk
      (fun i hi => by simpa using hfail i hi) (by simpa using hsucc)
    simpa [perform_update] using this
  · intro hpos hfail
    exact (retryLoop_all_fail fails max_retries 0 hpos
      (fun i hi => by simpa using hfail i hi)).1
  · simp [mainRunTrace, countActs, isLocate, perform_update,
      retryLoop_no_locate fails max_retries 0]

/-- Closed instance of `C4_retry_loop`: failures on attempts 1 and 2 and
success on attempt 3 under a bound of 3 succeed with exactly 2 backoffs of
3 time units and 3 connection attempts, locating the device once. -/
theorem C4_retry_loop_witness :
    (perform_update (fun i => decide (i < 2)) 3).1 = .success 2 ∧
    countActs isBackoff (perform_update (fun i => decide (i < 2)) 3).2 = 2 ∧
    countActs isConnectAttempt (perform_update (fun i => decide (i < 2)) 3).2 = 3 ∧
    backoffsAre3 (perform_update (fun i => decide (i < 2)) 3).2 = true ∧
    countActs isLocate (mainRunTrace (fun i => decide (i < 2)) 3) = 1 := by
  have h := C4_retry_loop (fun i => decide (i < 2)) 3 2
  have h1 := h.1 (by decide) (fun i hi => by simp; omega) (by decide)
  exact ⟨h1.1, h1.2.1, h1.2.2, h.2.2.1, h.2.2.2⟩

/-- Python's `str.upper()` over the code's ASCII identifiers, written as a
character-list map so that it evaluates inside the kernel. -/
def strUpper (s : String) : String := String.mk (s.data.map Char.toUpper)

/-- Python's `str.lower()` over the code's ASCII identifiers. -/
def strLower (s : String) : String := String.mk (s.data.map Char.toLower)

/-- A scanned device together with its advertisement, as iterated by
`find_device` (`dfu.py` line 299): `d.address`, `d.name` (may be `None`),
`adv.local_name` (may be `None`) and `adv.service_uuids`. -/
structure AdvDevice where
  address : String
  name : Option String
  localName : Option String
  service_uuids : List String
deriving DecidableEq

/-- `adv_name = adv.local_name or d.name or ""` (`dfu.py` line 302):
Python's `or` falls through on falsy values, so an absent or empty
`local_name` falls back to `d.name`, and an absent or empty `d.name`
to `""`. -/
def advName (d : AdvDevice) : String :=
  if d.localName.getD "" ≠ "" then d.localName.getD ""
  else d.name.getD ""

/-- The service criterion of `dfu.py` line 306:
`service_uuid.lower() in [u.lower() for u in adv.service_uuids]`. -/
def serviceHit (service_uuid : Option String) (d : AdvDevice) : Bool :=
  match service_uuid with
  | some s => (d.service_uuids.map strLower).contains (strLower s)
  | none => false

/-- The selection loop of `find_device` (`dfu.py` lines 297–307): iterate
the scan result in order and, for each device, test address
(case-insensitive), then advertised name (exact), then — when a service
filter is supplied — the advertised services; the first device passing any
test is returned.  (The `if not target` guard on line 305 is always true
at that point, since a set `target` breaks out of the loop.) -/
def scanSelect (name_or_address : String) (service_uuid : Option String) :
    List AdvDevice → Option AdvDevice
  | [] => none
  | d :: rest =>
    if strUpper d.address == strUpper name_or_address then some d
    else if advName d == name_or_address then some d
    else if serviceHit service_uuid d then some d
    else scanSelect name_or_address service_uuid rest

/-- The failure condition of `find_device` (`dfu.py` lines 309–310). -/
inductive FindError where
  | deviceNotFound
deriving DecidableEq

/-- The broadcast-scan tail of `find_device` (`dfu.py` lines 294–312):
select from the scan result, raising `DfuException("Device not found.")`
when no device matched. -/
def find_device_scan (name_or_address : String) (service_uuid : Option String)
    (devs : List AdvDevice) : Except FindError AdvDevice :=
  match scanSelect name_or_address service_uuid devs with
  | some d => .ok d
  | none => .error .deviceNotFound

/-- The selection rule as the claim words it — tiered priority over the
whole scan result: first any device matching by address, else any matching
by name, else (when a service filter is supplied) any matching by service.
Written from the claim, for comparison with `scanSelect`. -/
def tieredSelectClaim (name_or_address : String) (service_uuid : Option String)
    (devs : List AdvDevice) : Option AdvDevice :=
  match devs.find? (fun d => strUpper d.address == strUpper name_or_address) with
  | some d => some d
  | none =>
    match devs.find? (fun d => advName d == name_or_address) with
    | some d => some d
    | none => devs.find? (serviceHit service_uuid)

/-- The disjunction of the three per-device criteria, in the order the
loop tests them. -/
def matchesQuery (name_or_address : String) (service_uuid : Option String)
    (d : AdvDevice) : Bool :=
  strUpper d.address == strUpper name_or_address ||
  advName d == name_or_address ||
  serviceHit service_uuid d

/-- A device advertising the wanted service, listed before a device whose
address equals the query. -/
def devSvcOnly : AdvDevice :=
  ⟨"11:22:33:44:55:66", none, none, ["00001530-1212-efde-1523-785feabcd123"]⟩

/-- The device whose address matches the query in the C7 counterexample. -/
def devAddrMatch : AdvDevice :=
  ⟨"AA:BB:CC:DD:EE:FF", some "Other", none, []⟩

/-- C7 counterexample: with a scan listing a service-advertising device
before the address-matching one, the code returns the service match (first
in scan order) while the claimed tiered priority would return the address
match — selection is per-device in scan order, not tiered. -/
theorem C7_counterexample :
    scanSelect "aa:bb:cc:dd:ee:ff"
      (some "00001530-1212-EFDE-1523-785FEABCD123")
      [devSvcOnly, devAddrMatch] = some devSvcOnly ∧
    tieredSelectClaim "aa:bb:cc:dd:ee:ff"
      (some "00001530-1212-EFDE-1523-785FEABCD123")
      [devSvcOnly, devAddrMatch] = some devAddrMatch ∧
    devSvcOnly ≠ devAddrMatch := by
  refine ⟨?_, ?_, by decide⟩ <;> rfl

theorem scanSelect_eq_find? (name_or_address : String)
    (service_uuid : Option String) (devs : List AdvDevice) :
    scanSelect name_or_address service_uuid devs =
      devs.find? (matchesQuery name_or_address service_uuid) := by
  induction devs with
  | nil => rfl
  | cons d rest ih =>
    by_cases h1 : (strUpper d.address == strUpper name_or_address) = true
    · simp [scanSelect, List.find?, matchesQuery, h1]
    · by_cases h2 : (advName d == name_or_address) = true
      · simp [scanSelect, List.find?, matchesQuery, h1, h2]
      · by_cases h3 : serviceHit service_uuid d = true
        · simp [scanSelect, List.find?, matchesQuery, h1, h2, h3]
        · simp [scanSelect, List.find?, matchesQuery, h1, h2, h3, ih]

/-- C7 (amended): the broadcast-scan locator returns the first device in
scan order satisfying any of the criteria — address equal case-insensitively,
advertised (or fallback) name equal exactly, or (only when a service filter
is supplied) the advertisement listing that service, tested per device in
that order; when no device satisfies any criterion after the full pass, it
fails with the "device not found" condition rather than returning a
device. -/
theorem C7_find_device (name_or_address : String) (service_uuid : Option String)
    (devs : List AdvDevice) :
    scanSelect name_or_address service_uuid devs =
      devs.find? (matchesQuery name_or_address service_uuid) ∧
    (find_device_scan name_or_address service_uuid devs = .error .deviceNotFound ↔
      ∀ d ∈ devs, matchesQuery name_or_address service_uuid d = false) := by
  refine ⟨scanSelect_eq_find? _ _ _, ?_⟩
  unfold find_device_scan
  rw [scanSelect_eq_find? _ _ _]
  constructor
  · intro h d hd
    match hfind : devs.find? (matchesQuery name_or_address service_uuid) with
    | some d' => rw [hfind] at h; exact absurd h (by simp)
    | none =>
      have := List.find?_eq_none.mp hfind d hd
      simpa using this
  · intro h
    have : devs.find? (matchesQuery name_or_address service_uuid) = none :=
      List.find?_eq_none.mpr (fun d hd => by simp [h d hd])
    rw [this]

/-- Closed instance of `C7_find_device`: a scan containing only the
address-matching device fails for a query matching nothing. -/
theorem C7_find_device_witness :
    find_device_scan "nothing-here" none [devAddrMatch] =
      .error .deviceNotFound :=
  (C7_find_device "nothing-here" none [devAddrMatch]).2.mpr (by decide)

/-- Value of one hexadecimal digit, as accepted by Python's `int(s, 16)`. -/
def hexDigitVal (c : Char) : Option Nat :=
  if '0' ≤ c ∧ c ≤ '9' then some (c.toNat - '0'.toNat)
  else if 'a' ≤ c ∧ c ≤ 'f' then some (c.toNat - 'a'.toNat + 10)
  else if 'A' ≤ c ∧ c ≤ 'F' then some (c.toNat - 'A'.toNat + 10)
  else none

/-- `int(mac[-2:], 16)` on the two-character tail; `none` when a character
is not a hex digit (Python raises `ValueError`, caught by the bare
`except: pass`). -/
def parseHex2 (c1 c2 : Char) : Option Nat :=
  match hexDigitVal c1, hexDigitVal c2 with
  | some h, some l => some (16 * h + l)
  | _, _ => none

/-- One uppercase hexadecimal digit, as produced by `f"{b:02X}"`. -/
def hexDigitUpper (n : Nat) : Char :=
  if n < 10 then Char.ofNat ('0'.toNat + n)
  else Char.ofNat ('A'.toNat + n - 10)

/-- `f"{b:02X}"` for `b < 256`: two uppercase hex digits. -/
def toHex2 (n : Nat) : String :=
  String.mk [hexDigitUpper (n / 16), hexDigitUpper (n % 16)]

/-- The bootloader address heuristic (`dfu.py` lines 357–366 and
`dfu_cli.py` lines 143–152): for a colon-containing 17-character address,
keep the first 15 characters `mac[:-2]`, parse the last two as a hex octet,
add one modulo 256 (`& 0xFF`), and re-format the octet as two uppercase hex
digits appended to the kept part; `none` when the guard fails or the tail
is not hex (the surrounding `except: pass` then leaves no hint). -/
def bootloader_mac_hint (mac : String) : Option String :=
  if mac.data.contains ':' ∧ mac.length = 17 then
    match mac.data.drop 15 with
    | [c1, c2] =>
      match parseHex2 c1 c2 with
      | some b => some (String.mk (mac.data.take 15) ++ toHex2 ((b + 1) % 256))
      | none => none
    | _ => none
  else none

/-- The bootloader rediscovery actions of `main` (`dfu.py` lines 349–369):
the service-UUID scan always runs first; the MAC-increment heuristic scan
runs only when that scan produced no device. -/
inductive BootLocAct where
  | uuidScan
  | hintScan (hint : String)
deriving DecidableEq

/-- Bootloader rediscovery (`dfu.py` lines 349–369): try
`find_device("DFU", ..., service_uuid=DFU_SERVICE_UUID)` with its
`DfuException` swallowed; only if `bootloader_device` is still `None` is
the address heuristic derived and its targeted lookup attempted.
`uuidResult` and `hintResult` are the devices the two scans would find. -/
def locateBootloader (uuidResult : Option AdvDevice) (mac : String)
    (hintResult : Option AdvDevice) : Option AdvDevice × List BootLocAct :=
  match uuidResult with
  | some d => (some d, [.uuidScan])
  | none =>
    match bootloader_mac_hint mac with
    | some hint => (hintResult, [.uuidScan, .hintScan hint])
    | none => (none, [.uuidScan])

/-- C8: the heuristic maps "AA:BB:CC:DD:EE:FF" to "AA:BB:CC:DD:EE:00" and
"AA:BB:CC:DD:EE:01" to "AA:BB:CC:DD:EE:02"; in general, for every
colon-separated 17-character address with a hexadecimal tail, it keeps the
first 15 characters and replaces the last two by the last octet plus one
modulo 256 in two uppercase hex digits; and the heuristic scan is attempted
only when the service-UUID scan found no device. -/
theorem C8_bootloader_hint (pre : List Char) (c1 c2 : Char) (v : Nat)
    (hcolon : (pre ++ [c1, c2]).contains ':' = true)
    (hlen : pre.length = 15)
    (hv : parseHex2 c1 c2 = some v) :
    bootloader_mac_hint (String.mk (pre ++ [c1, c2])) =
      some (String.mk pre ++ toHex2 ((v + 1) % 256)) ∧
    bootloader_mac_hint "AA:BB:CC:DD:EE:FF" = some "AA:BB:CC:DD:EE:00" ∧
    bootloader_mac_hint "AA:BB:CC:DD:EE:01" = some "AA:BB:CC:DD:EE:02" ∧
    (∀ (d : AdvDevice) (mac : String) (hr : Option AdvDevice),
      (locateBootloader (some d) mac hr).2 = [.uuidScan]) ∧
    (∀ (mac : String) (hr : Option AdvDevice) (hint : String),
      bootloader_mac_hint mac = some hint →
      (locateBootloader none mac hr).2 = [.uuidScan, .hintScan hint]) := by
  refine ⟨?_, by rfl, by rfl, fun d mac hr => rfl, ?_⟩
  · have hdata : (String.mk (pre ++ [c1, c2])).data = pre ++ [c1, c2] := rfl
    have hlength : (String.mk (pre ++ [c1, c2])).length = 17 := by
      simp [String.length, hlen]
    unfold bootloader_mac_hint
    rw [if_pos ⟨by rw [hdata]; exact hcolon, hlength⟩]
    have hdrop : (String.mk (pre ++ [c1, c2])).data.drop 15 = [c1, c2] := by
      rw [hdata, ← hlen, List.drop_left]
    have htake : (String.mk (pre ++ [c1, c2])).data.take 15 = pre := by
      rw [hdata, ← hlen, List.take_left]
    rw [hdrop, htake]
    show (match parseHex2 c1 c2 with
          | some b => some (String.mk pre ++ toHex2 ((b + 1) % 256))
          | none => none) = some (String.mk pre ++ toHex2 ((v + 1) % 256))
    rw [hv]
  · intro mac hr hint h
    unfold locateBootloader
    rw [h]

/-- Closed instance of `C8_bootloader_hint` at the wraparound input. -/
theorem C8_bootloader_hint_witness :
    bootloader_mac_hint (String.mk ("AA:BB:CC:DD:EE:".data ++ ['F', 'F'])) =
      some (String.mk "AA:BB:CC:DD:EE:".data ++ toHex2 ((255 + 1) % 256)) ∧
    bootloader_mac_hint "AA:BB:CC:DD:EE:FF" = some "AA:BB:CC:DD:EE:00" :=
  ⟨(C8_bootloader_hint "AA:BB:CC:DD:EE:".data 'F' 'F' 255 (by decide) (by decide)
      (by decide)).1,
   (C8_bootloader_hint "AA:BB:CC:DD:EE:".data 'F' 'F' 255 (by decide) (by decide)
      (by decide)).2.1⟩

/-- Python's `pat in s` substring test over character lists, so that it
evaluates in the kernel. -/
def listHasSub (pat : List Char) : List Char → Bool
  | [] => pat.isEmpty
  | c :: t => pat.isPrefixOf (c :: t) || listHasSub pat t

/-- Python's `s.endswith(pat)`, over character lists. -/
def strEndsWith (s pat : String) : Bool := pat.data.isSuffixOf s.data

/-- An archive entry as `zipfile` presents it: a name and its content. -/
abbrev ZipEntry := String × List Byte

/-- `z.namelist()`. -/
def namelist (z : List ZipEntry) : List String := z.map Prod.fst

/-- `z.read(name)`: content of the first entry with that name, `none` when
the name is absent (`zipfile` raises `KeyError`). -/
def zread (z : List ZipEntry) (name : String) : Option (List Byte) :=
  (z.find? (fun e => e.1 == name)).map Prod.snd

/-- The `application` object of the decoded `manifest.json` with its
`bin_file`/`dat_file` names (`dfu.py` lines 79–81). -/
structure AppInfo where
  bin_file : String
  dat_file : String
deriving DecidableEq

/-- The decoded `manifest.json`: `'manifest' in self.manifest` and
`'application' in self.manifest['manifest']` (`dfu.py` line 78) become
optional fields. -/
structure ManifestBody where
  application : Option AppInfo
deriving DecidableEq

structure ManifestJson where
  manifest : Option ManifestBody
deriving DecidableEq

/-- Failures of `parse_zip`: its own `DfuException`s, a `KeyError` from
`z.read` on a missing name, and a `json.load` failure. -/
inductive ParseZipError where
  | dfuMsg (msg : String)
  | keyError
  | jsonError
deriving DecidableEq

/-- `self.bin_data = z.read(bin_file); self.dat_data = z.read(dat_file)`
(`dfu.py` lines 80–81 and 91–92): read both entries, a missing name
raising `KeyError`. -/
def readPair (z : List ZipEntry) (bf df : String) :
    Except ParseZipError (List Byte × List Byte) :=
  match zread z bf, zread z df with
  | some b, some d => .ok (b, d)
  | _, _ => .error .keyError

/-- The legacy auto-detection predicates of `dfu.py` lines 87–88:
`f.endswith('.bin') and 'application' in f.lower()` (resp. `.dat`). -/
def isAppBin (f : String) : Bool :=
  strEndsWith f ".bin" && listHasSub "application".data (strLower f).data

def isAppDat (f : String) : Bool :=
  strEndsWith f ".dat" && listHasSub "application".data (strLower f).data

/-- `parse_zip` (`dfu.py` lines 69–94), over an already-opened archive;
`decode` is the collaborator-supplied `json.load`.  The `'manifest.json' in z.namelist()`
test is modelled by whether `zread` finds the entry.  With a manifest, the
`application` entry's files are read; without one, the first
`*application*.bin` and `*application*.dat` names are located and read;
every path that cannot establish both parts returns an error.  No
emptiness check is made on the contents read. -/
def parse_zip (decode : List Byte → Except Unit ManifestJson)
    (z : List ZipEntry) : Except ParseZipError (List Byte × List Byte) :=
  match zread z "manifest.json" with
  | some mbytes =>
    match decode mbytes with
    | .error _ => .error .jsonError
    | .ok m =>
      match m.manifest with
      | some body =>
        match body.application with
        | some app => readPair z app.bin_file app.dat_file
        | none => .error (.dfuMsg "Zip must contain an Application firmware manifest.")
      | none => .error (.dfuMsg "Zip must contain an Application firmware manifest.")
  | none =>
    match (namelist z).find? isAppBin, (namelist z).find? isAppDat with
    | some bf, some df => readPair z bf df
    | _, _ => .error (.dfuMsg "Could not auto-detect firmware files in ZIP.")

/-- A decoder used only on inputs where it is never consulted. -/
def noDecode : List Byte → Except Unit ManifestJson := fun _ => .error ()

/-- C9 counterexample: an archive whose application binary entry is empty
parses successfully with an empty image — `parse_zip` never checks the
contents for non-emptiness, so "both non-empty after successful load"
fails. -/
theorem C9_counterexample :
    parse_zip noDecode [("application.bin", []), ("application.dat", [1])] =
      .ok ([], [1]) ∧
    ([] : List Byte).length = 0 := ⟨rfl, rfl⟩

theorem readPair_ok (z : List ZipEntry) (bf df : String) (b d : List Byte)
    (h : readPair z bf df = .ok (b, d)) :
    zread z bf = some b ∧ zread z df = some d := by
  rcases hb : zread z bf with _ | b' <;> rcases hd : zread z df with _ | d' <;>
    simp [readPair, hb, hd] at h
  rcases h with ⟨rfl, rfl⟩
  exact ⟨rfl, rfl⟩

/-- C9 (amended): after every successful return of `parse_zip`, both the
binary image and the initialization blob are the byte contents of entries
actually read from the archive — they are established, but possibly empty;
and a load that cannot locate the required parts (here: no manifest and no
application `.bin` entry) fails with an error instead of returning. -/
theorem C9_parse_zip (decode : List Byte → Except Unit ManifestJson)
    (z : List ZipEntry) (b d : List Byte) :
    (parse_zip decode z = .ok (b, d) →
      (∃ nb, zread z nb = some b) ∧ ∃ nd, zread z nd = some d) ∧
    (zread z "manifest.json" = none → (namelist z).find? isAppBin = none →
      ∃ e, parse_zip decode z = .error e) := by
  constructor
  · intro h
    rcases hm : zread z "manifest.json" with _ | mbytes
    · rcases hbf : (namelist z).find? isAppBin with _ | bf
      · rcases hdf : (namelist z).find? isAppDat with _ | df <;>
          simp [parse_zip, hm, hbf, hdf] at h
      · rcases hdf : (namelist z).find? isAppDat with _ | df
        · simp [parse_zip, hm, hbf, hdf] at h
        · simp only [parse_zip, hm, hbf, hdf] at h
          have := readPair_ok z bf df b d h
          exact ⟨⟨bf, this.1⟩, ⟨df, this.2⟩⟩
    · rcases hdec : decode mbytes with u | m
      · simp [parse_zip, hm, hdec] at h
      · rcases hbody : m.manifest with _ | body
        · simp [parse_zip, hm, hdec, hbody] at h
        · rcases happ : body.application with _ | app
          · simp [parse_zip, hm, hdec, hbody, happ] at h
          · simp only [parse_zip, hm, hdec, hbody, happ] at h
            have := readPair_ok z app.bin_file app.dat_file b d h
            exact ⟨⟨app.bin_file, this.1⟩, ⟨app.dat_file, this.2⟩⟩
  · intro hm hbf
    rcases hdf : (namelist z).find? isAppDat with _ | df
    · refine ⟨ParseZipError.dfuMsg "Could not auto-detect firmware files in ZIP.", ?_⟩
      simp [parse_zip, hm, hbf, hdf]
    · refine ⟨ParseZipError.dfuMsg "Could not auto-detect firmware files in ZIP.", ?_⟩
      simp [parse_zip, hm, hbf, hdf]

/-- Closed instance of `C9_parse_zip`: a successful parse yields contents
read from the archive, and an archive with neither manifest nor
application binary errors out. -/
theorem C9_parse_zip_witness :
    ((∃ nb, zread [(("application.bin" : String), ([7] : List Byte)),
        ("application.dat", [8])] nb = some [7]) ∧
      ∃ nd, zread [(("application.bin" : String), ([7] : List Byte)),
        ("application.dat", [8])] nd = some [8]) ∧
    ∃ e, parse_zip noDecode [(("x.bin" : String), ([1] : List Byte))] = .error e :=
  ⟨(C9_parse_zip noDecode [("application.bin", [7]), ("application.dat", [8])]
      [7] [8]).1 rfl,
   (C9_parse_zip noDecode [("x.bin", [1])] [] []).2 rfl rfl⟩

end NrfDfu
